import Mathlib

/-!
Verification of the derivation core of the electrical-calculator repository
(`src/script.js`).  Numeric values are modelled as rationals; the JavaScript
`null` of an undetermined output is modelled as `Option.none`.  Each
definition below embeds one function of the source file.
-/

namespace ECalc

/-- The raw input snapshot produced by `getInputValues` in `src/script.js`:
five numeric fields, absent fields already defaulted to `0`. -/
structure Reading where
  voltage : ℚ
  current : ℚ
  power : ℚ
  time : ℚ
  tariff : ℚ
deriving Repr, DecidableEq

/-- The computed-output snapshot built by `calculateAll` in `src/script.js`:
each field is a number or `null` (here `none`). -/
structure Derivation where
  calculatedPower : Option ℚ
  calculatedCurrent : Option ℚ
  calculatedVoltage : Option ℚ
  energy : Option ℚ
  cost : Option ℚ
deriving Repr, DecidableEq

/-- JavaScript `x || y` for `x` a number-or-null (`null` and `0` are falsy):
used for `results.calculatedPower || power` in `calculateAll`. -/
def jsOrNum (x : Option ℚ) (y : ℚ) : ℚ :=
  match x with
  | none => y
  | some q => if q = 0 then y else q

/-- JavaScript truthiness of a number-or-null value: used for the
`results.energy && tariff > 0` guard in `calculateAll`. -/
def jsTruthy (x : Option ℚ) : Bool :=
  match x with
  | none => false
  | some q => q != 0

/-- Embedding of `calculateAll` (`src/script.js` lines 282–329). -/
def calculateAll (values : Reading) : Derivation :=
  let voltage := values.voltage
  let current := values.current
  let power := values.power
  let time := values.time
  let tariff := values.tariff
  -- Power calculation (P = V × I)
  let calculatedPower : Option ℚ :=
    if voltage > 0 ∧ current > 0 then some (voltage * current)
    else if power > 0 then some power
    else none
  -- Current calculation (I = P / V)
  let calculatedCurrent : Option ℚ :=
    if power > 0 ∧ voltage > 0 then some (power / voltage)
    else if current > 0 then some current
    else none
  -- Voltage calculation (V = P / I)
  let calculatedVoltage : Option ℚ :=
    if power > 0 ∧ current > 0 then some (power / current)
    else if voltage > 0 then some voltage
    else none
  -- Energy calculation (E = P × t), converted to kWh
  let effectivePower : ℚ := jsOrNum calculatedPower power
  let energy : Option ℚ :=
    if effectivePower > 0 ∧ time > 0 then some (effectivePower * time / 1000)
    else none
  -- Cost calculation (Cost = Energy × Tariff)
  let cost : Option ℚ :=
    if jsTruthy energy ∧ tariff > 0 then some (energy.getD 0 * tariff)
    else none
  ⟨calculatedPower, calculatedCurrent, calculatedVoltage, energy, cost⟩

/-- Embedding of `hasValidInputs` (`src/script.js` lines 276–280):
`Object.values(values).filter(v => v > 0).length >= 2`. -/
def hasValidInputs (values : Reading) : Bool :=
  let nonZeroValues :=
    ([values.voltage, values.current, values.power, values.time,
      values.tariff].filter (fun v => decide (v > 0)))
  nonZeroValues.length ≥ 2

/-- The state of the result panel after `clearResults`: every output
undetermined. -/
def clearedDerivation : Derivation :=
  ⟨none, none, none, none, none⟩

/-- One entry of the `recentCalculations` history log
(`saveCalculation` in `src/script.js`); the timestamp is abstracted to a
natural number. -/
structure HistoryEntry where
  timestamp : ℕ
  inputs : Reading
  results : Derivation
deriving Repr, DecidableEq

/-- Embedding of `saveCalculation` (`src/script.js` lines 521–541):
unshift the new entry, then keep only the first 10. -/
def saveCalculation (now : ℕ) (inputs : Reading) (results : Derivation)
    (recentCalculations : List HistoryEntry) : List HistoryEntry :=
  let calculation : HistoryEntry := ⟨now, inputs, results⟩
  let l := calculation :: recentCalculations
  if l.length > 10 then l.take 10 else l

/-- Embedding of `performCalculations` (`src/script.js` lines 252–264):
the returned pair is (what `displayResults`/`clearResults` shows, the
history log after the call). -/
def performCalculations (now : ℕ) (values : Reading)
    (recentCalculations : List HistoryEntry) :
    Derivation × List HistoryEntry :=
  if hasValidInputs values then
    let results := calculateAll values
    (results, saveCalculation now values results recentCalculations)
  else
    (clearedDerivation, recentCalculations)

/-- The numeric value of a list of decimal digit characters. -/
def digitsToNat (ds : List Char) : ℕ :=
  ds.foldl (fun acc c => acc * 10 + (c.toNat - 48)) 0

/-- Model of the JavaScript builtin `parseFloat` used by `getInputValues`:
skip leading whitespace, read an optional sign and the longest prefix
`digits [. digits] [(e|E) [sign] digits]`; if no digit is found the result
is NaN (`none`); nonfinite literals are outside this rational model. -/
def parseFloat (s : String) : Option ℚ :=
  let cs := s.data.dropWhile Char.isWhitespace
  let signAndRest : ℚ × List Char :=
    match cs with
    | '+' :: rest => (1, rest)
    | '-' :: rest => (-1, rest)
    | _ => (1, cs)
  let sign := signAndRest.1
  let cs1 := signAndRest.2
  let intDigits := cs1.takeWhile Char.isDigit
  let afterInt := cs1.dropWhile Char.isDigit
  let fracPart : List Char × List Char :=
    match afterInt with
    | '.' :: rest => (rest.takeWhile Char.isDigit, rest.dropWhile Char.isDigit)
    | _ => ([], afterInt)
  if intDigits = [] ∧ fracPart.1 = [] then none
  else
    let mantissa : ℚ :=
      (digitsToNat intDigits : ℚ) +
        (digitsToNat fracPart.1 : ℚ) / (10 : ℚ) ^ fracPart.1.length
    let expVal : ℤ :=
      match fracPart.2 with
      | c :: rest =>
        if c = 'e' ∨ c = 'E' then
          let esignAndRest : ℤ × List Char :=
            match rest with
            | '+' :: r => (1, r)
            | '-' :: r => (-1, r)
            | _ => (1, rest)
          let expDigits := esignAndRest.2.takeWhile Char.isDigit
          if expDigits = [] then 0
          else esignAndRest.1 * (digitsToNat expDigits : ℤ)
        else 0
      | [] => 0
    some (sign * mantissa * (10 : ℚ) ^ expVal)

/-- The five raw field strings read from the host UI. -/
structure RawInputs where
  voltage : String
  current : String
  power : String
  time : String
  tariff : String

/-- Embedding of `getInputValues` (`src/script.js` lines 266–274):
each field is `parseFloat(...) || 0`. -/
def getInputValues (raw : RawInputs) : Reading :=
  ⟨jsOrNum (parseFloat raw.voltage) 0,
   jsOrNum (parseFloat raw.current) 0,
   jsOrNum (parseFloat raw.power) 0,
   jsOrNum (parseFloat raw.time) 0,
   jsOrNum (parseFloat raw.tariff) 0⟩

/-- Spec-side count of strictly positive fields of a Reading, for the
usability predicate of §4.1 of the specification. -/
def positiveFieldCount (v : Reading) : ℕ :=
  (if 0 < v.voltage then 1 else 0) + (if 0 < v.current then 1 else 0) +
    (if 0 < v.power then 1 else 0) + (if 0 < v.time then 1 else 0) +
    (if 0 < v.tariff then 1 else 0)

/-- The five input fields of a Reading, for field-generic statements. -/
inductive RField
  | voltage
  | current
  | power
  | time
  | tariff
deriving Repr, DecidableEq

/-- Read one field of a Reading. -/
def getField (v : Reading) : RField → ℚ
  | .voltage => v.voltage
  | .current => v.current
  | .power => v.power
  | .time => v.time
  | .tariff => v.tariff

/-- Replace one field of a Reading. -/
def setField (v : Reading) : RField → ℚ → Reading
  | .voltage, x => { v with voltage := x }
  | .current, x => { v with current := x }
  | .power, x => { v with power := x }
  | .time, x => { v with time := x }
  | .tariff, x => { v with tariff := x }

/-- Spec §4.2 effective power: the derived power when determined, else the
raw power field. -/
def effectivePowerSpec (v : Reading) : ℚ :=
  match (calculateAll v).calculatedPower with
  | some p => p
  | none => v.power

lemma calculatedPower_eq (v : Reading) :
    (calculateAll v).calculatedPower =
      if v.voltage > 0 ∧ v.current > 0 then some (v.voltage * v.current)
      else if v.power > 0 then some v.power
      else none := rfl

lemma calculatedCurrent_eq (v : Reading) :
    (calculateAll v).calculatedCurrent =
      if v.power > 0 ∧ v.voltage > 0 then some (v.power / v.voltage)
      else if v.current > 0 then some v.current
      else none := rfl

lemma calculatedVoltage_eq (v : Reading) :
    (calculateAll v).calculatedVoltage =
      if v.power > 0 ∧ v.current > 0 then some (v.power / v.current)
      else if v.voltage > 0 then some v.voltage
      else none := rfl

lemma energy_eq (v : Reading) :
    (calculateAll v).energy =
      if jsOrNum (calculateAll v).calculatedPower v.power > 0 ∧ v.time > 0
      then some (jsOrNum (calculateAll v).calculatedPower v.power * v.time / 1000)
      else none := rfl

lemma cost_eq (v : Reading) :
    (calculateAll v).cost =
      if jsTruthy (calculateAll v).energy ∧ v.tariff > 0
      then some ((calculateAll v).energy.getD 0 * v.tariff)
      else none := rfl

lemma calculatedPower_pos (v : Reading) {p : ℚ}
    (h : (calculateAll v).calculatedPower = some p) : 0 < p := by
  rw [calculatedPower_eq] at h
  split_ifs at h with h1 h2
  · cases h; exact mul_pos h1.1 h1.2
  · cases h; exact h2

lemma calculatedCurrent_pos (v : Reading) {c : ℚ}
    (h : (calculateAll v).calculatedCurrent = some c) : 0 < c := by
  rw [calculatedCurrent_eq] at h
  split_ifs at h with h1 h2
  · cases h; exact div_pos h1.1 h1.2
  · cases h; exact h2

lemma calculatedVoltage_pos (v : Reading) {w : ℚ}
    (h : (calculateAll v).calculatedVoltage = some w) : 0 < w := by
  rw [calculatedVoltage_eq] at h
  split_ifs at h with h1 h2
  · cases h; exact div_pos h1.1 h1.2
  · cases h; exact h2

lemma jsOrNum_calculatedPower (v : Reading) :
    jsOrNum (calculateAll v).calculatedPower v.power = effectivePowerSpec v := by
  unfold effectivePowerSpec
  cases h : (calculateAll v).calculatedPower with
  | none => rfl
  | some p =>
    have hp := calculatedPower_pos v h
    simp [jsOrNum, ne_of_gt hp]

lemma energy_pos (v : Reading) {e : ℚ}
    (h : (calculateAll v).energy = some e) : 0 < e := by
  rw [energy_eq] at h
  split_ifs at h with h1
  cases h
  exact div_pos (mul_pos h1.1 h1.2) (by norm_num)

lemma cost_pos (v : Reading) {k : ℚ}
    (h : (calculateAll v).cost = some k) : 0 < k := by
  rw [cost_eq] at h
  split_ifs at h with h1
  cases h
  rcases h1 with ⟨ht, htar⟩
  cases he : (calculateAll v).energy with
  | none => rw [he] at ht; simp [jsTruthy] at ht
  | some e =>
    have hepos := energy_pos v he
    simpa using mul_pos hepos htar

lemma jsTruthy_energy (v : Reading) :
    jsTruthy (calculateAll v).energy = true ↔ (calculateAll v).energy ≠ none := by
  cases he : (calculateAll v).energy with
  | none => simp [jsTruthy]
  | some e =>
    have := energy_pos v he
    simp [jsTruthy, ne_of_gt this]

/-- Claim C1: for every usable Reading the Derivation Engine applies the
stated precedence to the three electrical quantities: power is
voltage × current when both are positive, else the raw power field when
positive, else undetermined; current is raw power / voltage when both are
positive, else the raw current field when positive, else undetermined;
voltage is raw power / current when both are positive, else the raw
voltage field when positive, else undetermined. -/
theorem derivation_precedence_C1 (v : Reading) (_hu : hasValidInputs v = true) :
    ((0 < v.voltage ∧ 0 < v.current →
        (calculateAll v).calculatedPower = some (v.voltage * v.current)) ∧
      (¬(0 < v.voltage ∧ 0 < v.current) → 0 < v.power →
        (calculateAll v).calculatedPower = some v.power) ∧
      (¬(0 < v.voltage ∧ 0 < v.current) → ¬0 < v.power →
        (calculateAll v).calculatedPower = none)) ∧
    ((0 < v.power ∧ 0 < v.voltage →
        (calculateAll v).calculatedCurrent = some (v.power / v.voltage)) ∧
      (¬(0 < v.power ∧ 0 < v.voltage) → 0 < v.current →
        (calculateAll v).calculatedCurrent = some v.current) ∧
      (¬(0 < v.power ∧ 0 < v.voltage) → ¬0 < v.current →
        (calculateAll v).calculatedCurrent = none)) ∧
    ((0 < v.power ∧ 0 < v.current →
        (calculateAll v).calculatedVoltage = some (v.power / v.current)) ∧
      (¬(0 < v.power ∧ 0 < v.current) → 0 < v.voltage →
        (calculateAll v).calculatedVoltage = some v.voltage) ∧
      (¬(0 < v.power ∧ 0 < v.current) → ¬0 < v.voltage →
        (calculateAll v).calculatedVoltage = none)) := by
  simp only [calculatedPower_eq, calculatedCurrent_eq, calculatedVoltage_eq]
  refine ⟨⟨?_, ?_, ?_⟩, ⟨?_, ?_, ?_⟩, ⟨?_, ?_, ?_⟩⟩ <;> intros <;> split_ifs <;> tauto

/-- Witness for C1 at Reading{voltage=230, current=2}. -/
theorem derivation_precedence_C1_witness :
    hasValidInputs ⟨230, 2, 0, 0, 0⟩ = true ∧
    (calculateAll ⟨230, 2, 0, 0, 0⟩).calculatedPower = some ((230 : ℚ) * 2) := by
  refine ⟨by decide, ?_⟩
  exact (derivation_precedence_C1 ⟨230, 2, 0, 0, 0⟩ (by decide)).1.1
    ⟨by norm_num, by norm_num⟩

/-- Claim C2: for every usable Reading, energy is determined iff the
effective power (derived power when determined, else the raw power field)
and the time are both positive, and then equals
effective power × time / 1000; Reading{power=1000, time=5} yields
power=1000, energy=5, and undetermined current, voltage and cost. -/
theorem energy_C2 (v : Reading) (_hu : hasValidInputs v = true) :
    ((calculateAll v).energy ≠ none ↔ 0 < effectivePowerSpec v ∧ 0 < v.time) ∧
    (∀ e, (calculateAll v).energy = some e →
      e = effectivePowerSpec v * v.time / 1000) ∧
    calculateAll ⟨0, 0, 1000, 5, 0⟩ = ⟨some 1000, none, none, some 5, none⟩ := by
  refine ⟨?_, ?_, by simp [calculateAll, jsOrNum, jsTruthy]⟩
  · rw [energy_eq, jsOrNum_calculatedPower]
    split_ifs with h
    · simpa using h
    · simpa using h
  · intro e he
    rw [energy_eq, jsOrNum_calculatedPower] at he
    split_ifs at he
    cases he
    rfl

/-- Witness for C2 at Reading{power=1000, time=5}. -/
theorem energy_C2_witness :
    hasValidInputs ⟨0, 0, 1000, 5, 0⟩ = true ∧
    calculateAll ⟨0, 0, 1000, 5, 0⟩ = ⟨some 1000, none, none, some 5, none⟩ := by
  refine ⟨by decide, ?_⟩
  exact (energy_C2 ⟨0, 0, 1000, 5, 0⟩ (by decide)).2.2

/-- Claim C3: for every usable Reading, cost is determined iff energy is
determined and tariff is positive, and then equals energy × tariff;
Reading{power=1000, time=5, tariff=8.5} yields energy=5 and cost=42.5. -/
theorem cost_C3 (v : Reading) (_hu : hasValidInputs v = true) :
    ((calculateAll v).cost ≠ none ↔ (calculateAll v).energy ≠ none ∧ 0 < v.tariff) ∧
    (∀ e, (calculateAll v).energy = some e → 0 < v.tariff →
      (calculateAll v).cost = some (e * v.tariff)) ∧
    calculateAll ⟨0, 0, 1000, 5, 17 / 2⟩ =
      ⟨some 1000, none, none, some 5, some (85 / 2)⟩ := by
  refine ⟨?_, ?_, by simp [calculateAll, jsOrNum, jsTruthy]; norm_num⟩
  · rw [cost_eq]
    split_ifs with h
    · simp only [ne_eq, reduceCtorEq, not_false_iff, true_iff]
      exact ⟨(jsTruthy_energy v).mp h.1, h.2⟩
    · rw [not_and_or] at h
      constructor
      · intro hk; exact absurd rfl hk
      · rintro ⟨hene, htar⟩
        rcases h with h | h
        · exact absurd ((jsTruthy_energy v).mpr hene) h
        · exact absurd htar h
  · intro e he htar
    rw [cost_eq]
    rw [if_pos ⟨(jsTruthy_energy v).mpr (by simp [he]), htar⟩, he]
    rfl

/-- Witness for C3 at Reading{power=1000, time=5, tariff=8.5}. -/
theorem cost_C3_witness :
    hasValidInputs ⟨0, 0, 1000, 5, 17 / 2⟩ = true ∧
    calculateAll ⟨0, 0, 1000, 5, 17 / 2⟩ =
      ⟨some 1000, none, none, some 5, some (85 / 2)⟩ := by
  refine ⟨by norm_num [hasValidInputs], ?_⟩
  exact (cost_C3 ⟨0, 0, 1000, 5, 17 / 2⟩ (by norm_num [hasValidInputs])).2.2

lemma hasValidInputs_iff (v : Reading) :
    hasValidInputs v = true ↔ 2 ≤ positiveFieldCount v := by
  by_cases h1 : (0:ℚ) < v.voltage <;> by_cases h2 : (0:ℚ) < v.current <;>
    by_cases h3 : (0:ℚ) < v.power <;> by_cases h4 : (0:ℚ) < v.time <;>
    by_cases h5 : (0:ℚ) < v.tariff <;>
    simp [hasValidInputs, positiveFieldCount, h1, h2, h3, h4, h5]

/-- Claim C4: a Reading is usable iff at least two of its five fields are
strictly positive, and for a non-usable Reading the pipeline clears the
Derivation to all-undetermined and records no history entry. -/
theorem usability_C4 :
    (∀ v : Reading, hasValidInputs v = true ↔ 2 ≤ positiveFieldCount v) ∧
    (∀ (now : ℕ) (v : Reading) (hist : List HistoryEntry),
      hasValidInputs v = false →
        performCalculations now v hist = (clearedDerivation, hist)) := by
  refine ⟨hasValidInputs_iff, ?_⟩
  intro now v hist h
  simp [performCalculations, h]

/-- Witness for C4 at the all-zero Reading. -/
theorem usability_C4_witness :
    hasValidInputs ⟨0, 0, 0, 0, 0⟩ = false ∧
    performCalculations 0 ⟨0, 0, 0, 0, 0⟩ [] = (clearedDerivation, []) := by
  refine ⟨by decide, ?_⟩
  exact usability_C4.2 0 ⟨0, 0, 0, 0, 0⟩ [] (by decide)

lemma saveCalculation_length_le (now : ℕ) (inp : Reading) (res : Derivation)
    (hist : List HistoryEntry) (h : hist.length ≤ 10) :
    (saveCalculation now inp res hist).length ≤ 10 := by
  simp only [saveCalculation]
  split_ifs with hl
  · simp
  · simp only [gt_iff_lt, not_lt, List.length_cons] at hl
    simp only [List.length_cons]
    omega

/-- Claim C5: the history log is bounded at 10 entries under every
sequence of record operations: each record prepends the new timestamped
entry to the front and truncates to the 10 most recent, so a log of 10
entries loses its oldest (last) entry when an 11th is recorded. -/
theorem history_bound_C5 :
    (∀ (now : ℕ) (inp : Reading) (res : Derivation) (hist : List HistoryEntry),
      (saveCalculation now inp res hist).head? = some ⟨now, inp, res⟩) ∧
    (∀ (now : ℕ) (inp : Reading) (res : Derivation) (hist : List HistoryEntry),
      hist.length ≤ 10 → (saveCalculation now inp res hist).length ≤ 10) ∧
    (∀ (now : ℕ) (inp : Reading) (res : Derivation) (hist : List HistoryEntry),
      hist.length = 10 →
        saveCalculation now inp res hist = ⟨now, inp, res⟩ :: hist.take 9) ∧
    (∀ ops : List (ℕ × Reading × Derivation),
      (ops.foldl (fun h op => saveCalculation op.1 op.2.1 op.2.2 h) []).length ≤ 10) := by
  refine ⟨?_, saveCalculation_length_le, ?_, ?_⟩
  · intro now inp res hist
    simp only [saveCalculation]
    split_ifs with hl
    · rw [show (10:ℕ) = 9 + 1 from rfl, List.take_succ_cons]
      rfl
    · rfl
  · intro now inp res hist h
    simp only [saveCalculation, List.length_cons, h]
    rw [if_pos (by omega), show (10:ℕ) = 9 + 1 from rfl, List.take_succ_cons]
  · intro ops
    have key : ∀ (ops : List (ℕ × Reading × Derivation)) (hist : List HistoryEntry),
        hist.length ≤ 10 →
        (ops.foldl (fun h op => saveCalculation op.1 op.2.1 op.2.2 h) hist).length ≤ 10 := by
      intro ops
      induction ops with
      | nil => intro hist h; simpa using h
      | cons op ops ih =>
        intro hist h
        exact ih _ (saveCalculation_length_le op.1 op.2.1 op.2.2 hist h)
    exact key ops [] (by simp)

/-- Witness for C5: recording into the empty log keeps it within bound. -/
theorem history_bound_C5_witness :
    ([] : List HistoryEntry).length ≤ 10 ∧
    (saveCalculation 0 ⟨0, 0, 0, 0, 0⟩ clearedDerivation []).length ≤ 10 :=
  ⟨by simp, history_bound_C5.2.1 0 ⟨0, 0, 0, 0, 0⟩ clearedDerivation [] (by simp)⟩

/-- Counterexample to claim C6 as stated: Reading{voltage=1, current=1,
power=2} is usable and determines power=1, current=2, voltage=2, yet
1 ≠ 2 × 2, so the three derived quantities are not mutually consistent. -/
theorem consistency_C6_counterexample :
    hasValidInputs ⟨1, 1, 2, 0, 0⟩ = true ∧
    (calculateAll ⟨1, 1, 2, 0, 0⟩).calculatedPower = some 1 ∧
    (calculateAll ⟨1, 1, 2, 0, 0⟩).calculatedCurrent = some 2 ∧
    (calculateAll ⟨1, 1, 2, 0, 0⟩).calculatedVoltage = some 2 ∧
    (1 : ℚ) ≠ 2 * 2 := by
  refine ⟨by decide, ?_, ?_, ?_, by norm_num⟩ <;> simp [calculateAll]

/-- Claim C6 amended: for every usable Reading that determines all three of
power, current and voltage, derived power = derived voltage × derived
current, provided it is not the case that all three raw fields voltage,
current, power are simultaneously positive with raw power different from
raw voltage × raw current. -/
theorem consistency_C6_amended (v : Reading) (_hu : hasValidInputs v = true)
    (p c w : ℚ)
    (hp : (calculateAll v).calculatedPower = some p)
    (hc : (calculateAll v).calculatedCurrent = some c)
    (hw : (calculateAll v).calculatedVoltage = some w)
    (hcons : ¬(0 < v.voltage ∧ 0 < v.current ∧ 0 < v.power) ∨
      v.power = v.voltage * v.current) :
    p = w * c := by
  rw [calculatedPower_eq] at hp
  rw [calculatedCurrent_eq] at hc
  rw [calculatedVoltage_eq] at hw
  rcases lt_or_le 0 v.voltage with hV | hV <;>
    rcases lt_or_le 0 v.current with hI | hI <;>
    rcases lt_or_le 0 v.power with hP | hP
  · -- voltage, current, power all positive: consistency hypothesis needed
    rcases hcons with h | h
    · exact absurd ⟨hV, hI, hP⟩ h
    · rw [if_pos ⟨hV, hI⟩] at hp
      rw [if_pos ⟨hP, hV⟩] at hc
      rw [if_pos ⟨hP, hI⟩] at hw
      cases hp; cases hc; cases hw
      rw [h]
      have hV0 : v.voltage ≠ 0 := ne_of_gt hV
      have hI0 : v.current ≠ 0 := ne_of_gt hI
      field_simp
  · -- voltage, current positive, power not
    rw [if_pos ⟨hV, hI⟩] at hp
    rw [if_neg (fun hx => (not_lt.mpr hP) hx.1), if_pos hI] at hc
    rw [if_neg (fun hx => (not_lt.mpr hP) hx.1), if_pos hV] at hw
    cases hp; cases hc; cases hw
    rfl
  · -- voltage, power positive, current not
    rw [if_neg (fun hx => (not_lt.mpr hI) hx.2), if_pos hP] at hp
    rw [if_pos ⟨hP, hV⟩] at hc
    rw [if_neg (fun hx => (not_lt.mpr hI) hx.2), if_pos hV] at hw
    cases hp; cases hc; cases hw
    have hV0 : v.voltage ≠ 0 := ne_of_gt hV
    field_simp
  · -- only voltage positive: power undetermined, contradiction
    rw [if_neg (fun hx => (not_lt.mpr hI) hx.2),
      if_neg (not_lt.mpr hP)] at hp
    cases hp
  · -- current, power positive, voltage not
    rw [if_neg (fun hx => (not_lt.mpr hV) hx.1), if_pos hP] at hp
    rw [if_neg (fun hx => (not_lt.mpr hV) hx.2), if_pos hI] at hc
    rw [if_pos ⟨hP, hI⟩] at hw
    cases hp; cases hc; cases hw
    have hI0 : v.current ≠ 0 := ne_of_gt hI
    field_simp
  · -- only current positive: power undetermined, contradiction
    rw [if_neg (fun hx => (not_lt.mpr hV) hx.1),
      if_neg (not_lt.mpr hP)] at hp
    cases hp
  · -- only power positive: current undetermined, contradiction
    rw [if_neg (fun hx => (not_lt.mpr hV) hx.2),
      if_neg (not_lt.mpr hI)] at hc
    cases hc
  · -- nothing positive: power undetermined, contradiction
    rw [if_neg (fun hx => (not_lt.mpr hV) hx.1),
      if_neg (not_lt.mpr hP)] at hp
    cases hp

/-- Witness for the amended C6 at Reading{voltage=230, current=2}. -/
theorem consistency_C6_amended_witness :
    hasValidInputs ⟨230, 2, 0, 0, 0⟩ = true ∧ (460 : ℚ) = 230 * 2 := by
  refine ⟨by decide, ?_⟩
  exact consistency_C6_amended ⟨230, 2, 0, 0, 0⟩ (by decide) 460 2 230
    (by simp [calculateAll]; norm_num)
    (by simp [calculateAll])
    (by simp [calculateAll])
    (Or.inl (by norm_num))

/-- Claim C7: the Derivation Engine is deterministic and stateless — two
pipeline invocations on identical Readings produce identical Derivations
whatever the stored history or timestamps, and the output depends on the
Reading alone. -/
theorem stateless_C7 (v : Reading) (t1 t2 : ℕ)
    (hist1 hist2 : List HistoryEntry) :
    (performCalculations t1 v hist1).1 = (performCalculations t2 v hist2).1 ∧
    (performCalculations t1 v hist1).1 =
      (if hasValidInputs v then calculateAll v else clearedDerivation) := by
  unfold performCalculations
  constructor <;> split_ifs <;> rfl

lemma jsOrNum_getD (x : Option ℚ) : jsOrNum x 0 = x.getD 0 := by
  cases x with
  | none => rfl
  | some q =>
    simp only [jsOrNum, Option.getD_some]
    split_ifs with h
    · rw [h]
    · rfl

/-- Claim C8: the Input Collector parses every raw field string to a
number, a field that is empty or non-numeric maps to zero in the produced
Reading, and parsing is total (never an error). -/
theorem input_parsing_C8 (raw : RawInputs) :
    ((getInputValues raw).voltage = (parseFloat raw.voltage).getD 0 ∧
      (getInputValues raw).current = (parseFloat raw.current).getD 0 ∧
      (getInputValues raw).power = (parseFloat raw.power).getD 0 ∧
      (getInputValues raw).time = (parseFloat raw.time).getD 0 ∧
      (getInputValues raw).tariff = (parseFloat raw.tariff).getD 0) ∧
    parseFloat "" = none ∧
    parseFloat "abc" = none ∧
    parseFloat "230" = some 230 ∧
    parseFloat "  -12.5e2xyz" = some (-1250) := by
  refine ⟨⟨?_, ?_, ?_, ?_, ?_⟩, rfl, rfl, ?_, ?_⟩
  · exact jsOrNum_getD _
  · exact jsOrNum_getD _
  · exact jsOrNum_getD _
  · exact jsOrNum_getD _
  · exact jsOrNum_getD _
  · simp +decide [parseFloat, digitsToNat]
  · simp +decide [parseFloat, digitsToNat]
    norm_num

/-- Claim C9: for every Reading with arbitrary field values, every
determined field of the Derivation is strictly positive; in particular a
determined energy is nonzero, so the cost branch's truthiness test on
energy coincides with energy being determined. -/
theorem positivity_C9 (v : Reading) :
    (∀ p, (calculateAll v).calculatedPower = some p → 0 < p) ∧
    (∀ c, (calculateAll v).calculatedCurrent = some c → 0 < c) ∧
    (∀ w, (calculateAll v).calculatedVoltage = some w → 0 < w) ∧
    (∀ e, (calculateAll v).energy = some e → 0 < e) ∧
    (∀ k, (calculateAll v).cost = some k → 0 < k) ∧
    (jsTruthy (calculateAll v).energy = true ↔ (calculateAll v).energy ≠ none) :=
  ⟨fun _ h => calculatedPower_pos v h,
   fun _ h => calculatedCurrent_pos v h,
   fun _ h => calculatedVoltage_pos v h,
   fun _ h => energy_pos v h,
   fun _ h => cost_pos v h,
   jsTruthy_energy v⟩

/-- Witness for C9 at Reading{power=1000, time=5}. -/
theorem positivity_C9_witness :
    (calculateAll ⟨0, 0, 1000, 5, 0⟩).energy = some 5 ∧ (0 : ℚ) < 5 := by
  have h : (calculateAll ⟨0, 0, 1000, 5, 0⟩).energy = some 5 := by
    simp [calculateAll, jsOrNum]
  exact ⟨h, (positivity_C9 ⟨0, 0, 1000, 5, 0⟩).2.2.2.1 5 h⟩

lemma hasValidInputs_congr {v w : Reading}
    (h : positiveFieldCount v = positiveFieldCount w) :
    hasValidInputs v = hasValidInputs w := by
  rw [Bool.eq_iff_iff, hasValidInputs_iff, hasValidInputs_iff, h]

/-- Claim C10: replacing a negative field of a Reading by zero changes
neither the usability verdict nor any field of the resulting Derivation —
every guard compares with strict positivity, so a negative field behaves
exactly like an absent one. -/
theorem negative_fields_C10 (v : Reading) (f : RField)
    (h : getField v f < 0) :
    hasValidInputs (setField v f 0) = hasValidInputs v ∧
    calculateAll (setField v f 0) = calculateAll v := by
  cases f <;> simp only [getField] at h <;>
    have h' := not_lt.mpr (le_of_lt h)
  case voltage =>
    refine ⟨hasValidInputs_congr ?_, ?_⟩
    · simp [positiveFieldCount, setField, h', lt_self_iff_false]
    · simp [calculateAll, setField, h', lt_self_iff_false]
  case current =>
    refine ⟨hasValidInputs_congr ?_, ?_⟩
    · simp [positiveFieldCount, setField, h', lt_self_iff_false]
    · simp [calculateAll, setField, h', lt_self_iff_false]
  case power =>
    refine ⟨hasValidInputs_congr ?_, ?_⟩
    · simp [positiveFieldCount, setField, h', lt_self_iff_false]
    · by_cases hVI : 0 < v.voltage ∧ 0 < v.current
      · simp [calculateAll, setField, h', lt_self_iff_false, hVI, jsOrNum,
          ne_of_gt (mul_pos hVI.1 hVI.2)]
      · simp [calculateAll, setField, h', lt_self_iff_false, hVI, jsOrNum]
  case time =>
    refine ⟨hasValidInputs_congr ?_, ?_⟩
    · simp [positiveFieldCount, setField, h', lt_self_iff_false]
    · simp [calculateAll, setField, h', lt_self_iff_false]
  case tariff =>
    refine ⟨hasValidInputs_congr ?_, ?_⟩
    · simp [positiveFieldCount, setField, h', lt_self_iff_false]
    · simp [calculateAll, setField, h', lt_self_iff_false]

/-- Witness for C10 at Reading{voltage=230, current=2, power=-5}. -/
theorem negative_fields_C10_witness :
    getField ⟨230, 2, -5, 0, 0⟩ RField.power < 0 ∧
    (hasValidInputs (setField ⟨230, 2, -5, 0, 0⟩ RField.power 0) =
        hasValidInputs ⟨230, 2, -5, 0, 0⟩ ∧
      calculateAll (setField ⟨230, 2, -5, 0, 0⟩ RField.power 0) =
        calculateAll ⟨230, 2, -5, 0, 0⟩) := by
  have h : getField ⟨230, 2, -5, 0, 0⟩ RField.power < 0 := by
    norm_num [getField]
  exact ⟨h, negative_fields_C10 ⟨230, 2, -5, 0, 0⟩ RField.power h⟩

end ECalc
